import Mathlib

/-!
Shallow embedding of the `abut` length-prefixed framing layer
(`src/frame/mod.rs`, `src/types.rs`, `src/error.rs`).

A byte stream is a `List Nat` (each element one byte, values 0..255);
reading consumes a prefix of the list.  Stateful reader operations are
modelled by explicit state passing: each operation returns a pair of the
operation's `Except` outcome and the remaining stream.  Machine integers
are `Nat` with explicit bounds where overflow matters (the `u32` length
prefix).  The underlying stream itself never fails except by ending, so
the only I/O error the model produces is the end-of-stream error that
`read_exact` raises on a short read.
-/

namespace Abut

/-- `u32::MAX` as a natural number: the largest length representable in
the 4-byte length field. -/
def U32_MAX : Nat := 4294967295

/-- `u32::to_le_bytes`: the four little-endian bytes of a 32-bit value.
The argument is assumed `< 2^32` (it is produced by `try_into::<u32>` in
the source). -/
def toLE4 (n : Nat) : List Nat :=
  [n % 256, n / 256 % 256, n / 65536 % 256, n / 16777216 % 256]

/-- `u32::from_le_bytes` on a 4-byte list (the source always applies it
to a buffer of exactly `LEN_PREFIX = 4` bytes). -/
def fromLE4 : List Nat → Nat
  | [b0, b1, b2, b3] => b0 + 256 * b1 + 65536 * b2 + 16777216 * b3
  | _ => 0

/-- The error kinds of `AbutError` (`src/error.rs`) that the framing core
can produce: `AbutCode::Io`, `AbutCode::BufferTooSmall` with the needed
byte count, and `AbutCode::FrameTooLarge` with the offending length and
the limit (the context recorded by `buffer_too_small` / `frame_too_large`). -/
inductive AbutError where
  | ioError : AbutError
  | bufferTooSmall (needed : Nat) : AbutError
  | frameTooLarge (len max : Nat) : AbutError
deriving DecidableEq

/-- `ReaderConfig` (`src/types.rs`). -/
structure ReaderConfig where
  max_frame_len : Nat
  drain_on_small_buffer : Bool
  drain_oversize_up_to : Nat
deriving DecidableEq

/-- `impl Default for ReaderConfig` (`src/types.rs`). -/
def ReaderConfig.default : ReaderConfig :=
  { max_frame_len := 64 * 1024
    drain_on_small_buffer := true
    drain_oversize_up_to := 0 }

/-- `FramedWriter::write_frame`: on a sink that has already received
`sink`, either fail `FrameTooLarge` (when the payload length does not fit
in a `u32`, i.e. `try_into` fails) writing nothing, or append the 4-byte
little-endian length followed by the payload. -/
def write_frame (sink : List Nat) (bytes : List Nat) :
    Except AbutError Unit × List Nat :=
  if bytes.length > U32_MAX then
    (.error (.frameTooLarge bytes.length U32_MAX), sink)
  else
    (.ok (), sink ++ toLE4 bytes.length ++ bytes)

/-- `Read::read_exact` on a byte-list stream: succeed with the first `n`
bytes when the stream has at least `n`, otherwise consume what remains
and fail with an end-of-stream I/O error. -/
def read_exact (n : Nat) (s : List Nat) :
    Except AbutError (List Nat) × List Nat :=
  if n ≤ s.length then (.ok (s.take n), s.drop n)
  else (.error .ioError, s.drop n)

/-- `FramedReader::drain_exact`: `std::io::copy` from `take(len)` into a
sink consumes up to `len` bytes, stopping quietly at end of stream; it
never fails on a pure byte-list stream. -/
def drain_exact (len : Nat) (s : List Nat) : List Nat := s.drop len

/-- `FramedReader::read_len`: read exactly 4 bytes and decode them as a
little-endian `u32`. -/
def read_len (s : List Nat) : Except AbutError Nat × List Nat :=
  match read_exact 4 s with
  | (.ok b, s1) => (.ok (fromLE4 b), s1)
  | (.error e, s1) => (.error e, s1)

/-- `FramedReader::recv_into`: read the length, apply the oversize
policy, else clear/resize the destination and fill it; on success the
returned list is the destination's exact new contents. -/
def recv_into (cfg : ReaderConfig) (s : List Nat) :
    Except AbutError (List Nat) × List Nat :=
  match read_len s with
  | (.error e, s1) => (.error e, s1)
  | (.ok len, s1) =>
    if len > cfg.max_frame_len then
      if cfg.drain_oversize_up_to ≠ 0 ∧ len ≤ cfg.drain_oversize_up_to then
        (.error (.frameTooLarge len cfg.max_frame_len), drain_exact len s1)
      else
        (.error (.frameTooLarge len cfg.max_frame_len), s1)
    else
      match read_exact len s1 with
      | (.ok body, s2) => (.ok body, s2)
      | (.error e, s2) => (.error e, s2)

/-- `FramedReader::read_frame`: read the length, apply the oversize
policy, then the small-buffer policy, else fill `dst[..len]` and return
the length together with the destination slice's new contents (the bytes
past `len` keep their old values). -/
def read_frame (cfg : ReaderConfig) (s : List Nat) (dst : List Nat) :
    Except AbutError (Nat × List Nat) × List Nat :=
  match read_len s with
  | (.error e, s1) => (.error e, s1)
  | (.ok len, s1) =>
    if len > cfg.max_frame_len then
      if cfg.drain_oversize_up_to ≠ 0 ∧ len ≤ cfg.drain_oversize_up_to then
        (.error (.frameTooLarge len cfg.max_frame_len), drain_exact len s1)
      else
        (.error (.frameTooLarge len cfg.max_frame_len), s1)
    else if dst.length < len then
      if cfg.drain_on_small_buffer then
        (.error (.bufferTooSmall len), drain_exact len s1)
      else
        (.error (.bufferTooSmall len), s1)
    else
      match read_exact len s1 with
      | (.ok body, s2) => (.ok (len, body ++ dst.drop len), s2)
      | (.error e, s2) => (.error e, s2)

/-- `FramedReader`: a stream handle together with a `ReaderConfig`. -/
structure FramedReader where
  stream : List Nat
  cfg : ReaderConfig
deriving DecidableEq

/-- `FramedReader::with_config`. -/
def FramedReader.with_config (s : List Nat) (cfg : ReaderConfig) :
    FramedReader := ⟨s, cfg⟩

/-- `FramedReader::new`: delegates to `with_config` with
`ReaderConfig::default()`. -/
def FramedReader.new (s : List Nat) : FramedReader :=
  FramedReader.with_config s ReaderConfig.default

/-- `FramedReader::with_max`: default configuration with `max_frame_len`
replaced. -/
def FramedReader.with_max (s : List Nat) (m : Nat) : FramedReader :=
  FramedReader.with_config s { ReaderConfig.default with max_frame_len := m }

example : write_frame [] [10, 20] = (.ok (), [2, 0, 0, 0, 10, 20]) := by rfl

example :
    recv_into ReaderConfig.default [2, 0, 0, 0, 10, 20, 9] =
      (.ok [10, 20], [9]) := by rfl

example :
    read_frame ⟨2, true, 0⟩ [5, 0, 0, 0, 1, 2, 3, 4, 5] [0, 0, 0] =
      (.error (.frameTooLarge 5 2), [1, 2, 3, 4, 5]) := by rfl

example :
    read_frame ⟨10, true, 0⟩ [5, 0, 0, 0, 1, 2, 3, 4, 5, 7] [0, 0, 0] =
      (.error (.bufferTooSmall 5), [7]) := by rfl

example :
    read_frame ⟨10, true, 0⟩ [3, 0, 0, 0, 1, 2, 3, 9] [0, 0, 0, 0, 0] =
      (.ok (3, [1, 2, 3, 0, 0]), [9]) := by rfl

/-- Decoding the 4 little-endian bytes of `n < 2^32` recovers `n`. -/
theorem fromLE4_toLE4 (n : Nat) (h : n ≤ U32_MAX) : fromLE4 (toLE4 n) = n := by
  simp only [toLE4, fromLE4, U32_MAX] at *
  omega

theorem toLE4_length (n : Nat) : (toLE4 n).length = 4 := rfl

/-- On a stream with at least 4 bytes, `read_len` succeeds with the
decoded prefix and consumes exactly those 4 bytes. -/
theorem read_len_of_le (s : List Nat) (h : 4 ≤ s.length) :
    read_len s = (.ok (fromLE4 (s.take 4)), s.drop 4) := by
  simp [read_len, read_exact, h]

/-- On a stream with fewer than 4 bytes, `read_len` fails with the
end-of-stream I/O error. -/
theorem read_len_short (s : List Nat) (h : s.length < 4) :
    read_len s = (.error .ioError, s.drop 4) := by
  simp [read_len, read_exact, Nat.not_le.mpr h]

/-- Full case description of `recv_into` on a stream with at least 4
bytes, in terms of the declared length `L` decoded from the prefix. -/
theorem recv_into_eq (cfg : ReaderConfig) (s : List Nat) (L : Nat)
    (hL : fromLE4 (s.take 4) = L) (h4 : 4 ≤ s.length) :
    recv_into cfg s =
      if cfg.max_frame_len < L then
        if cfg.drain_oversize_up_to ≠ 0 ∧ L ≤ cfg.drain_oversize_up_to then
          (.error (.frameTooLarge L cfg.max_frame_len), s.drop (4 + L))
        else
          (.error (.frameTooLarge L cfg.max_frame_len), s.drop 4)
      else if 4 + L ≤ s.length then
        (.ok ((s.drop 4).take L), s.drop (4 + L))
      else
        (.error .ioError, s.drop (4 + L)) := by
  have hlen : (s.drop 4).length = s.length - 4 := List.length_drop 4 s
  by_cases hover : cfg.max_frame_len < L
  · by_cases hz : cfg.drain_oversize_up_to ≠ 0 ∧ L ≤ cfg.drain_oversize_up_to
    · simp [recv_into, read_len_of_le s h4, hL, hover, hz, drain_exact,
        List.drop_drop]
    · simp [recv_into, read_len_of_le s h4, hL, hover, hz]
  · by_cases hfit : 4 + L ≤ s.length
    · have hc : L ≤ s.length - 4 := by omega
      simp [recv_into, read_len_of_le s h4, hL, hover, read_exact, hc, hfit,
        List.drop_drop]
    · have hc : ¬ L ≤ s.length - 4 := by omega
      simp [recv_into, read_len_of_le s h4, hL, hover, read_exact, hc, hfit,
        List.drop_drop]

/-- Full case description of `read_frame` on a stream with at least 4
bytes, in terms of the declared length `L` decoded from the prefix. -/
theorem read_frame_eq (cfg : ReaderConfig) (s dst : List Nat) (L : Nat)
    (hL : fromLE4 (s.take 4) = L) (h4 : 4 ≤ s.length) :
    read_frame cfg s dst =
      if cfg.max_frame_len < L then
        if cfg.drain_oversize_up_to ≠ 0 ∧ L ≤ cfg.drain_oversize_up_to then
          (.error (.frameTooLarge L cfg.max_frame_len), s.drop (4 + L))
        else
          (.error (.frameTooLarge L cfg.max_frame_len), s.drop 4)
      else if dst.length < L then
        if cfg.drain_on_small_buffer then
          (.error (.bufferTooSmall L), s.drop (4 + L))
        else
          (.error (.bufferTooSmall L), s.drop 4)
      else if 4 + L ≤ s.length then
        (.ok (L, (s.drop 4).take L ++ dst.drop L), s.drop (4 + L))
      else
        (.error .ioError, s.drop (4 + L)) := by
  have hlen : (s.drop 4).length = s.length - 4 := List.length_drop 4 s
  by_cases hover : cfg.max_frame_len < L
  · by_cases hz : cfg.drain_oversize_up_to ≠ 0 ∧ L ≤ cfg.drain_oversize_up_to
    · simp [read_frame, read_len_of_le s h4, hL, hover, hz, drain_exact,
        List.drop_drop]
    · simp [read_frame, read_len_of_le s h4, hL, hover, hz]
  · by_cases hsmall : dst.length < L
    · by_cases hb : cfg.drain_on_small_buffer
      · simp [read_frame, read_len_of_le s h4, hL, hover, hsmall, hb,
          drain_exact, List.drop_drop]
      · simp [read_frame, read_len_of_le s h4, hL, hover, hsmall, hb]
    · by_cases hfit : 4 + L ≤ s.length
      · have hc : L ≤ s.length - 4 := by omega
        simp [read_frame, read_len_of_le s h4, hL, hover, hsmall, read_exact,
          hc, hfit, List.drop_drop]
      · have hc : ¬ L ≤ s.length - 4 := by omega
        simp [read_frame, read_len_of_le s h4, hL, hover, hsmall, read_exact,
          hc, hfit, List.drop_drop]

/-- C5: `write_frame(bytes)` fails with `FrameTooLarge` iff
`bytes.len() > 2^32 - 1`, and then writes nothing to the sink; on success
it writes exactly the 4-byte little-endian length followed by the payload,
in that order.  (The writer takes no `ReaderConfig`, so it never consults
`max_frame_len`.) -/
theorem c5_writer_contract (sink bytes : List Nat) :
    ((write_frame sink bytes).fst =
        .error (.frameTooLarge bytes.length U32_MAX) ↔
      U32_MAX < bytes.length) ∧
    (U32_MAX < bytes.length → (write_frame sink bytes).snd = sink) ∧
    (bytes.length ≤ U32_MAX →
      write_frame sink bytes = (.ok (), sink ++ (toLE4 bytes.length ++ bytes))) := by
  refine ⟨⟨?_, ?_⟩, ?_, ?_⟩
  · intro h
    by_contra hc
    simp [write_frame, Nat.not_lt.mp hc, Nat.not_lt.mpr (Nat.not_lt.mp hc)] at h
  · intro h
    simp [write_frame, h]
  · intro h
    simp [write_frame, h]
  · intro h
    simp [write_frame, Nat.not_lt.mpr h, List.append_assoc]

theorem c5_writer_contract_witness :
    write_frame [5] [1, 2] = (.ok (), [5] ++ (toLE4 2 ++ [1, 2])) :=
  (c5_writer_contract [5] [1, 2]).2.2 (by decide)

/-- C6: on a stream with fewer than 4 bytes in total, both `recv_into`
and `read_frame` return the `Io`-kind error (the only end-of-stream
signal there is); no garbage length is acted upon. -/
theorem c6_short_stream (cfg : ReaderConfig) (s dst : List Nat)
    (h : s.length < 4) :
    (recv_into cfg s).fst = .error .ioError ∧
      (read_frame cfg s dst).fst = .error .ioError := by
  constructor
  · simp [recv_into, read_len_short s h]
  · simp [read_frame, read_len_short s h]

theorem c6_short_stream_witness :
    (recv_into ReaderConfig.default [1, 2]).fst = .error .ioError ∧
      (read_frame ReaderConfig.default [1, 2] []).fst = .error .ioError :=
  c6_short_stream ReaderConfig.default [1, 2] [] (by decide)

/-- C1 (as stated) fails: with `max_frame_len = 2^32` the payload
`replicate (2^32) 0` satisfies `len(b) ≤ max_frame_len`, yet `write_frame`
rejects it with `FrameTooLarge` (its length does not fit the `u32` length
field), writes nothing, and the subsequent `recv_into` over the resulting
(empty) bytes fails instead of producing `b`. -/
theorem c1_roundtrip_counterexample :
    (List.replicate 4294967296 (0 : Nat)).length ≤
        (⟨4294967296, true, 0⟩ : ReaderConfig).max_frame_len ∧
      (write_frame [] (List.replicate 4294967296 (0 : Nat))).fst =
        .error (.frameTooLarge 4294967296 U32_MAX) ∧
      (recv_into ⟨4294967296, true, 0⟩
          (write_frame [] (List.replicate 4294967296 (0 : Nat))).snd).fst =
        .error .ioError := by
  have hlen : (List.replicate 4294967296 (0 : Nat)).length = 4294967296 :=
    List.length_replicate 4294967296 0
  have hbig : U32_MAX < (List.replicate 4294967296 (0 : Nat)).length := by
    rw [hlen]; norm_num [U32_MAX]
  have hw : write_frame [] (List.replicate 4294967296 (0 : Nat)) =
      (.error (.frameTooLarge 4294967296 U32_MAX), []) := by
    unfold write_frame
    rw [if_pos hbig, hlen]
  refine ⟨?_, ?_, ?_⟩
  · rw [hlen]
  · rw [hw]
  · rw [hw]
    simp [recv_into, read_len_short [] (by norm_num)]

/-- C1 amended: for every byte sequence `b` with
`len(b) ≤ max_frame_len` and additionally `len(b) ≤ 2^32 - 1`, writing
`b` and then reading the resulting bytes (with any trailing data)
succeeds and yields exactly `b`, for all lengths including zero. -/
theorem c1_roundtrip (cfg : ReaderConfig) (b rest : List Nat)
    (hmax : b.length ≤ cfg.max_frame_len) (h32 : b.length ≤ U32_MAX) :
    write_frame [] b = (.ok (), toLE4 b.length ++ b) ∧
      recv_into cfg (toLE4 b.length ++ b ++ rest) = (.ok b, rest) := by
  constructor
  · simp [write_frame, Nat.not_lt.mpr h32]
  · rw [List.append_assoc]
    set s := toLE4 b.length ++ (b ++ rest) with hs
    have hslen : s.length = 4 + (b.length + rest.length) := by
      rw [hs, List.length_append, List.length_append, toLE4_length]
    have htake : s.take 4 = toLE4 b.length := by
      rw [hs]; exact List.take_left' (toLE4_length _)
    have hL : fromLE4 (s.take 4) = b.length := by
      rw [htake, fromLE4_toLE4 _ h32]
    have h4 : 4 ≤ s.length := by omega
    rw [recv_into_eq cfg s b.length hL h4]
    rw [if_neg (by omega), if_pos (by omega)]
    have hdrop4 : s.drop 4 = b ++ rest := by
      rw [hs]; exact List.drop_left' (toLE4_length _)
    have h1 : (s.drop 4).take b.length = b := by
      rw [hdrop4]; exact List.take_left _ _
    have h2 : s.drop (4 + b.length) = rest := by
      rw [← List.drop_drop, hdrop4]; exact List.drop_left _ _
    rw [h1, h2]

theorem c1_roundtrip_witness :
    write_frame [] [10, 20] = (.ok (), [2, 0, 0, 0, 10, 20]) ∧
      recv_into ⟨4, true, 0⟩ [2, 0, 0, 0, 10, 20, 9] = (.ok [10, 20], [9]) := by
  have h := c1_roundtrip ⟨4, true, 0⟩ [10, 20] [9] (by decide) (by decide)
  simpa [toLE4] using h

/-- C2: whenever `recv_into` / `read_frame` succeeds, or fails with a
drain performed (oversize frame with `0 ≠ drain_oversize_up_to ≥ L`, or
small destination with `drain_on_small_buffer` set), the remaining stream
is `s.drop (4 + L)` for the declared length `L`: with the frame's body
present (`4 + L ≤ s.length`) exactly `4 + L` bytes were consumed, so the
cursor sits at the start of the next frame's length field. -/
theorem c2_stream_alignment (cfg : ReaderConfig) (s dst : List Nat) (L : Nat)
    (hL : fromLE4 (s.take 4) = L) (h4 : 4 ≤ s.length)
    (hfull : 4 + L ≤ s.length) :
    ((recv_into cfg s).fst.isOk = true →
        (recv_into cfg s).snd = s.drop (4 + L)) ∧
    ((read_frame cfg s dst).fst.isOk = true →
        (read_frame cfg s dst).snd = s.drop (4 + L)) ∧
    (cfg.max_frame_len < L → cfg.drain_oversize_up_to ≠ 0 →
      L ≤ cfg.drain_oversize_up_to →
        (recv_into cfg s).snd = s.drop (4 + L) ∧
        (read_frame cfg s dst).snd = s.drop (4 + L)) ∧
    (L ≤ cfg.max_frame_len → dst.length < L →
      cfg.drain_on_small_buffer = true →
        (read_frame cfg s dst).snd = s.drop (4 + L)) ∧
    (s.drop (4 + L)).length = s.length - (4 + L) := by
  have hrecv := recv_into_eq cfg s L hL h4
  have hread := read_frame_eq cfg s dst L hL h4
  refine ⟨?_, ?_, ?_, ?_, ?_⟩
  · intro hok
    rw [hrecv] at hok ⊢
    by_cases hover : cfg.max_frame_len < L
    · by_cases hz : cfg.drain_oversize_up_to ≠ 0 ∧ L ≤ cfg.drain_oversize_up_to
      · simp [hover, hz, Except.isOk, Except.toBool] at hok
      · simp [hover, hz, Except.isOk, Except.toBool] at hok
    · simp [hover, hfull]
  · intro hok
    rw [hread] at hok ⊢
    by_cases hover : cfg.max_frame_len < L
    · by_cases hz : cfg.drain_oversize_up_to ≠ 0 ∧ L ≤ cfg.drain_oversize_up_to
      · simp [hover, hz, Except.isOk, Except.toBool] at hok
      · simp [hover, hz, Except.isOk, Except.toBool] at hok
    · by_cases hsmall : dst.length < L
      · by_cases hb : cfg.drain_on_small_buffer
        · simp [hover, hsmall, hb, Except.isOk, Except.toBool] at hok
        · simp [hover, hsmall, hb, Except.isOk, Except.toBool] at hok
      · simp [hover, hsmall, hfull]
  · intro hover hz hle
    constructor
    · rw [hrecv]
      simp [hover, hz, hle]
    · rw [hread]
      simp [hover, hz, hle]
  · intro hin hsmall hb
    have hover : ¬ cfg.max_frame_len < L := by omega
    rw [hread]
    simp [hover, hsmall, hb]
  · rw [List.length_drop]

theorem c2_stream_alignment_witness :
    (recv_into ⟨10, true, 0⟩ [3, 0, 0, 0, 7, 8, 9, 5]).snd = [5] ∧
      (read_frame ⟨10, true, 0⟩ [3, 0, 0, 0, 7, 8, 9, 5] [0, 0, 0]).snd = [5] := by
  have h := c2_stream_alignment ⟨10, true, 0⟩ [3, 0, 0, 0, 7, 8, 9, 5]
    [0, 0, 0] 3 rfl (by decide) (by decide)
  exact ⟨by simpa using h.1 rfl, by simpa using h.2.1 rfl⟩

/-- C3: on a stream whose next frame declares `L > max_frame_len`, both
readers return `FrameTooLarge`; when `drain_oversize_up_to ≠ 0` and
`L ≤ drain_oversize_up_to` the remaining stream is `s.drop (4 + L)` (the
L body bytes, present by `hfull`, are consumed and discarded), otherwise
it is `s.drop 4` (only the 4 prefix bytes consumed, body left unread). -/
theorem c3_oversize_rejection (cfg : ReaderConfig) (s dst : List Nat) (L : Nat)
    (hL : fromLE4 (s.take 4) = L) (h4 : 4 ≤ s.length)
    (hfull : 4 + L ≤ s.length) (hover : cfg.max_frame_len < L) :
    recv_into cfg s =
      (.error (.frameTooLarge L cfg.max_frame_len),
        if cfg.drain_oversize_up_to ≠ 0 ∧ L ≤ cfg.drain_oversize_up_to
        then s.drop (4 + L) else s.drop 4) ∧
    read_frame cfg s dst =
      (.error (.frameTooLarge L cfg.max_frame_len),
        if cfg.drain_oversize_up_to ≠ 0 ∧ L ≤ cfg.drain_oversize_up_to
        then s.drop (4 + L) else s.drop 4) := by
  constructor
  · rw [recv_into_eq cfg s L hL h4, if_pos hover]
    by_cases hz : cfg.drain_oversize_up_to ≠ 0 ∧ L ≤ cfg.drain_oversize_up_to
    · rw [if_pos hz, if_pos hz]
    · rw [if_neg hz, if_neg hz]
  · rw [read_frame_eq cfg s dst L hL h4, if_pos hover]
    by_cases hz : cfg.drain_oversize_up_to ≠ 0 ∧ L ≤ cfg.drain_oversize_up_to
    · rw [if_pos hz, if_pos hz]
    · rw [if_neg hz, if_neg hz]

theorem c3_oversize_rejection_witness :
    recv_into ⟨2, true, 10⟩ [5, 0, 0, 0, 1, 2, 3, 4, 5, 9] =
      (.error (.frameTooLarge 5 2), [9]) := by
  have h := c3_oversize_rejection ⟨2, true, 10⟩ [5, 0, 0, 0, 1, 2, 3, 4, 5, 9]
    [] 5 rfl (by decide) (by decide) (by decide)
  simpa using h.1

/-- C4: for a within-limit declared length `L ≤ max_frame_len`,
`read_frame` fails `BufferTooSmall` when `dst.len() < L` (draining the L
body bytes iff `drain_on_small_buffer`), succeeds when `dst.len() = L`
exactly (no off-by-one rejection), and fails `BufferTooSmall` when `L`
exceeds `dst.len()` by exactly 1. -/
theorem c4_buffer_boundary (cfg : ReaderConfig) (s dst : List Nat) (L : Nat)
    (hL : fromLE4 (s.take 4) = L) (h4 : 4 ≤ s.length)
    (hin : L ≤ cfg.max_frame_len) :
    (dst.length < L →
      read_frame cfg s dst =
        (.error (.bufferTooSmall L),
          if cfg.drain_on_small_buffer then s.drop (4 + L) else s.drop 4)) ∧
    (dst.length = L → 4 + L ≤ s.length →
      (read_frame cfg s dst).fst.isOk = true) ∧
    (L = dst.length + 1 →
      (read_frame cfg s dst).fst = .error (.bufferTooSmall L)) := by
  have hread := read_frame_eq cfg s dst L hL h4
  have hover : ¬ cfg.max_frame_len < L := by omega
  refine ⟨?_, ?_, ?_⟩
  · intro hsmall
    rw [hread, if_neg hover, if_pos hsmall]
    by_cases hb : cfg.drain_on_small_buffer
    · rw [if_pos hb, if_pos hb]
    · rw [if_neg hb, if_neg hb]
  · intro hdst hfull
    rw [hread, if_neg hover, if_neg (by omega), if_pos hfull]
    rfl
  · intro hplus
    have hsmall : dst.length < L := by omega
    rw [hread, if_neg hover, if_pos hsmall]
    by_cases hb : cfg.drain_on_small_buffer
    · rw [if_pos hb]
    · rw [if_neg hb]

theorem c4_buffer_boundary_witness :
    (read_frame ⟨10, true, 0⟩ [3, 0, 0, 0, 1, 2, 3, 9] [0, 0, 0]).fst.isOk =
        true ∧
      (read_frame ⟨10, true, 0⟩ [3, 0, 0, 0, 1, 2, 3, 9] [0, 0]).fst =
        .error (.bufferTooSmall 3) := by
  have h1 := c4_buffer_boundary ⟨10, true, 0⟩ [3, 0, 0, 0, 1, 2, 3, 9]
    [0, 0, 0] 3 rfl (by decide) (by decide)
  have h2 := c4_buffer_boundary ⟨10, true, 0⟩ [3, 0, 0, 0, 1, 2, 3, 9]
    [0, 0] 3 rfl (by decide) (by decide)
  exact ⟨h1.2.1 (by decide) (by decide), h2.2.2 (by decide)⟩

/-- C7: a successful `read_frame` of a frame with declared length `L`
returns exactly `L`; the destination's first `L` bytes are the payload
`(s.drop 4).take L` and every byte at index `≥ L` keeps the value it had
before the call. -/
theorem c7_dst_effect (cfg : ReaderConfig) (s dst : List Nat) (L : Nat)
    (hL : fromLE4 (s.take 4) = L) (h4 : 4 ≤ s.length)
    (hin : L ≤ cfg.max_frame_len) (hdst : L ≤ dst.length)
    (hfull : 4 + L ≤ s.length) :
    read_frame cfg s dst =
      (.ok (L, (s.drop 4).take L ++ dst.drop L), s.drop (4 + L)) ∧
    ((s.drop 4).take L ++ dst.drop L).take L = (s.drop 4).take L ∧
    ((s.drop 4).take L ++ dst.drop L).drop L = dst.drop L := by
  have hread := read_frame_eq cfg s dst L hL h4
  have hover : ¬ cfg.max_frame_len < L := by omega
  have hsmall : ¬ dst.length < L := by omega
  have hlen : ((s.drop 4).take L).length = L := by
    simp [List.length_take, List.length_drop]
    omega
  refine ⟨?_, List.take_left' hlen, List.drop_left' hlen⟩
  rw [hread, if_neg hover, if_neg hsmall, if_pos hfull]

theorem c7_dst_effect_witness :
    read_frame ⟨10, true, 0⟩ [2, 0, 0, 0, 8, 9, 7] [5, 5, 5, 5] =
      (.ok (2, [8, 9, 5, 5]), [7]) := by
  have h := c7_dst_effect ⟨10, true, 0⟩ [2, 0, 0, 0, 8, 9, 7] [5, 5, 5, 5]
    2 rfl (by decide) (by decide) (by decide) (by decide)
  simpa using h.1

/-- C8: in `read_frame` the oversize check precedes the buffer check:
with `L > max_frame_len` and `L > dst.len()` the error is `FrameTooLarge`
and never `BufferTooSmall`, the drain is decided solely by
`drain_oversize_up_to`, and flipping `drain_on_small_buffer` does not
change the call's outcome at all. -/
theorem c8_oversize_precedence (cfg : ReaderConfig) (s dst : List Nat)
    (L : Nat) (hL : fromLE4 (s.take 4) = L) (h4 : 4 ≤ s.length)
    (hover : cfg.max_frame_len < L) (hdst : dst.length < L) :
    (read_frame cfg s dst).fst = .error (.frameTooLarge L cfg.max_frame_len) ∧
    (∀ n, (read_frame cfg s dst).fst ≠ .error (.bufferTooSmall n)) ∧
    (read_frame cfg s dst).snd =
      (if cfg.drain_oversize_up_to ≠ 0 ∧ L ≤ cfg.drain_oversize_up_to
        then s.drop (4 + L) else s.drop 4) ∧
    (∀ b : Bool,
      read_frame { cfg with drain_on_small_buffer := b } s dst =
        read_frame cfg s dst) := by
  have hread := read_frame_eq cfg s dst L hL h4
  have hfst : (read_frame cfg s dst).fst =
      .error (.frameTooLarge L cfg.max_frame_len) := by
    rw [hread, if_pos hover]
    by_cases hz : cfg.drain_oversize_up_to ≠ 0 ∧ L ≤ cfg.drain_oversize_up_to
    · rw [if_pos hz]
    · rw [if_neg hz]
  refine ⟨hfst, ?_, ?_, ?_⟩
  · intro n hn
    rw [hfst] at hn
    simp at hn
  · rw [hread, if_pos hover]
    by_cases hz : cfg.drain_oversize_up_to ≠ 0 ∧ L ≤ cfg.drain_oversize_up_to
    · rw [if_pos hz, if_pos hz]
    · rw [if_neg hz, if_neg hz]
  · intro b
    have hb := read_frame_eq { cfg with drain_on_small_buffer := b } s dst L
      hL h4
    rw [hb, hread, if_pos hover, if_pos hover]

theorem c8_oversize_precedence_witness :
    (read_frame ⟨2, false, 0⟩ [5, 0, 0, 0, 1, 2, 3, 4, 5] [0]).fst =
        .error (.frameTooLarge 5 2) ∧
      read_frame ⟨2, true, 0⟩ [5, 0, 0, 0, 1, 2, 3, 4, 5] [0] =
        read_frame ⟨2, false, 0⟩ [5, 0, 0, 0, 1, 2, 3, 4, 5] [0] := by
  have h := c8_oversize_precedence ⟨2, false, 0⟩ [5, 0, 0, 0, 1, 2, 3, 4, 5]
    [0] 5 rfl (by decide) (by decide) (by decide)
  exact ⟨h.1, h.2.2.2 true⟩

/-- C9: `FramedReader::new` installs the default configuration
`max_frame_len = 65536`, `drain_on_small_buffer = true`,
`drain_oversize_up_to = 0`; hence by default `read_frame` drains a
within-limit frame that does not fit the destination (stream advances to
`s.drop (4 + L)`) and never drains an oversize frame (stream stays at
`s.drop 4`). -/
theorem c9_default_reader (s dst : List Nat) (L : Nat)
    (hL : fromLE4 (s.take 4) = L) (h4 : 4 ≤ s.length) :
    (FramedReader.new s).cfg.max_frame_len = 65536 ∧
    (FramedReader.new s).cfg.drain_on_small_buffer = true ∧
    (FramedReader.new s).cfg.drain_oversize_up_to = 0 ∧
    (L ≤ 65536 → dst.length < L →
      read_frame (FramedReader.new s).cfg s dst =
        (.error (.bufferTooSmall L), s.drop (4 + L))) ∧
    (65536 < L →
      read_frame (FramedReader.new s).cfg s dst =
        (.error (.frameTooLarge L 65536), s.drop 4)) := by
  have hread := read_frame_eq ReaderConfig.default s dst L hL h4
  refine ⟨rfl, rfl, rfl, ?_, ?_⟩
  · intro hin hsmall
    have hover : ¬ ReaderConfig.default.max_frame_len < L := by
      simp only [ReaderConfig.default]
      omega
    show read_frame ReaderConfig.default s dst = _
    rw [hread, if_neg hover, if_pos hsmall,
      if_pos (show ReaderConfig.default.drain_on_small_buffer = true from rfl)]
  · intro hbig
    have hover : ReaderConfig.default.max_frame_len < L := by
      simp only [ReaderConfig.default]
      omega
    have hz : ¬ (ReaderConfig.default.drain_oversize_up_to ≠ 0 ∧
        L ≤ ReaderConfig.default.drain_oversize_up_to) := by
      simp [ReaderConfig.default]
    show read_frame ReaderConfig.default s dst = _
    rw [hread, if_pos hover, if_neg hz]
    rfl

theorem c9_default_reader_witness :
    read_frame (FramedReader.new [3, 0, 0, 0, 1, 2, 3]).cfg
        [3, 0, 0, 0, 1, 2, 3] [0] =
      (.error (.bufferTooSmall 3), []) := by
  have h := c9_default_reader [3, 0, 0, 0, 1, 2, 3] [0] 3 rfl (by decide)
  simpa using h.2.2.2.1 (by decide) (by decide)

/-- C10: when a drain is triggered but the stream ends before the L body
bytes are available, the drain consumes all remaining bytes without
reporting an error: the call returns the policy error (`FrameTooLarge` or
`BufferTooSmall`), not an `Io` error, and the remaining stream is empty. -/
theorem c10_drain_at_eof (cfg : ReaderConfig) (s dst : List Nat) (L : Nat)
    (hL : fromLE4 (s.take 4) = L) (h4 : 4 ≤ s.length)
    (hshort : s.length < 4 + L) :
    (cfg.max_frame_len < L → cfg.drain_oversize_up_to ≠ 0 →
      L ≤ cfg.drain_oversize_up_to →
        recv_into cfg s = (.error (.frameTooLarge L cfg.max_frame_len), []) ∧
        read_frame cfg s dst =
          (.error (.frameTooLarge L cfg.max_frame_len), [])) ∧
    (L ≤ cfg.max_frame_len → dst.length < L →
      cfg.drain_on_small_buffer = true →
        read_frame cfg s dst = (.error (.bufferTooSmall L), [])) := by
  have hnil : s.drop (4 + L) = [] := List.drop_eq_nil_of_le (by omega)
  have hrecv := recv_into_eq cfg s L hL h4
  have hread := read_frame_eq cfg s dst L hL h4
  constructor
  · intro hover hz hle
    constructor
    · rw [hrecv, if_pos hover, if_pos ⟨hz, hle⟩, hnil]
    · rw [hread, if_pos hover, if_pos ⟨hz, hle⟩, hnil]
  · intro hin hsmall hb
    rw [hread, if_neg (by omega), if_pos hsmall, if_pos hb, hnil]

theorem c10_drain_at_eof_witness :
    read_frame ⟨10, true, 0⟩ [5, 0, 0, 0, 1, 2] [0] =
      (.error (.bufferTooSmall 5), []) := by
  have h := c10_drain_at_eof ⟨10, true, 0⟩ [5, 0, 0, 0, 1, 2] [0] 5 rfl
    (by decide) (by decide)
  exact h.2 (by decide) (by decide) rfl

end Abut
